import Mathlib

/-!
Verification of the SwingTrade analysis core (`src/SwingTrade.py`).

The per-ticker analysis (`run_analysis`, lines 36-133) is embedded
shallowly: prices and volumes are exact rationals, a value that Python
would hold as `None` or `NaN` is an `Option ℚ` with `none` for the
unavailable case, and a computation that can raise (`pandas` negative
`iloc` out of range) returns `Except Unit`.  The indicator library calls
(`ta.momentum.RSIIndicator`, `ta.trend.MACD`,
`ta.volatility.AverageTrueRange`, `pandas` `ewm`/`rolling`) are not part
of this repository; those functions are modelled from the spec, as their
doc comments state.
-/

namespace SwingTrade

/-- One OHLCV bar: the columns of the fetched price history that the
analysis reads (`High`, `Low`, `Close`, `Volume`). -/
structure Bar where
  high : ℚ
  low : ℚ
  close : ℚ
  volume : ℚ
deriving DecidableEq, Repr

/-- The dictionary appended to `records` for one ticker (lines 112-127 of
`SwingTrade.py`).  `none` stands for an unavailable value (Python `None`
or `NaN`). -/
structure SignalRecord where
  timestamp : String
  ticker : String
  pattern : String
  trend : String
  rsi : Option ℚ
  macd : Option ℚ
  atr : Option ℚ
  volume : Option ℤ
  gap : ℚ
  currentPrice : ℚ
  priceTargetUp : Option ℚ
  priceTargetDown : Option ℚ
  probability : ℕ
  signals : String
deriving DecidableEq, Repr

/-- `l.iloc[-k]` for `k ≥ 1`, with default `0` when out of range. -/
def ilocD (l : List ℚ) (k : ℕ) : ℚ := l.reverse.getD (k - 1) 0

/-- `l.iloc[-k]`: pandas raises `IndexError` when the series is shorter
than `k`. -/
def iloc (l : List ℚ) (k : ℕ) : Except Unit ℚ :=
  if 1 ≤ k ∧ k ≤ l.length then .ok (ilocD l k) else .error ()

/-- Python `round` to the nearest integer, ties to the even integer. -/
def roundHalfEven (x : ℚ) : ℤ :=
  if x - ⌊x⌋ < 1 / 2 then ⌊x⌋
  else if 1 / 2 < x - ⌊x⌋ then ⌊x⌋ + 1
  else if ⌊x⌋ % 2 = 0 then ⌊x⌋ else ⌊x⌋ + 1

/-- Python `round(x, 2)`: round to two decimal places. -/
def round2 (x : ℚ) : ℚ := (roundHalfEven (x * 100) : ℚ) / 100

/-- Python `int`: truncation toward zero. -/
def pyInt (x : ℚ) : ℤ := if 0 ≤ x then ⌊x⌋ else -⌊-x⌋

/-- Consecutive close-to-close differences (`close.diff(1)` without the
leading `NaN`). -/
def diffs : List ℚ → List ℚ
  | [] => []
  | [_] => []
  | a :: b :: t => (b - a) :: diffs (b :: t)

/-- Modelled from the spec: Wilder's recursive average with window `w`
(`ta.momentum.RSIIndicator`'s smoothing is not part of this repository).
Seeded by the simple mean of the first `w` entries, then each new average
is the previous average weighted by `(w-1)/w` plus the new value weighted
by `1/w`; `none` when fewer than `w` entries exist. -/
def wilder (w : ℕ) (l : List ℚ) : Option ℚ :=
  if l.length < w ∨ w = 0 then none
  else some ((l.drop w).foldl
    (fun avg x => (avg * ((w : ℚ) - 1) + x) / (w : ℚ)) ((l.take w).sum / (w : ℚ)))

/-- Modelled from the spec: RSI with window 14 over close-to-close
differences (`ta.momentum.RSIIndicator(close).rsi().iloc[-1]`, line 53,
is not part of this repository).  `RSI = 100 − 100/(1+RS)` with
`RS = avgGain/avgLoss`; edge cases `avgLoss = 0 → 100`,
`avgGain = 0 → 0`, both zero `→ 50`; `none` (unavailable) for fewer than
15 closes. -/
def rsiLast (closes : List ℚ) : Option ℚ :=
  match wilder 14 ((diffs closes).map (fun d => max d 0)),
        wilder 14 ((diffs closes).map (fun d => max (-d) 0)) with
  | some gv, some lv =>
      some (if gv = 0 ∧ lv = 0 then 50
            else if lv = 0 then 100
            else if gv = 0 then 0
            else 100 - 100 / (1 + gv / lv))
  | _, _ => none

/-- One EMA step with smoothing factor `α`. -/
def emaStep (α prev x : ℚ) : ℚ := α * x + (1 - α) * prev

/-- The EMA series from a seed value. -/
def emaGo (α : ℚ) (e : ℚ) : List ℚ → List ℚ
  | [] => [e]
  | x :: xs => e :: emaGo α (emaStep α e x) xs

/-- Modelled from the spec: `EMA(series, span)` with smoothing factor
`α = 2/(span+1)`, seeded by the first value (`close.ewm(span=..).mean()`,
lines 65-66, is a `pandas` call, not part of this repository). -/
def emaList (span : ℕ) : List ℚ → List ℚ
  | [] => []
  | x :: xs => emaGo (2 / ((span : ℚ) + 1)) x xs

/-- Modelled from the spec: MACD histogram at the last bar
(`ta.trend.MACD(close).macd_diff().iloc[-1]`, line 54, is not part of
this repository): `macdLine = EMA(close,12) − EMA(close,26)`,
`signalLine = EMA(macdLine,9)`, histogram `= macdLine − signalLine`;
`none` (unavailable) for fewer than 26+9 bars. -/
def macdDiffLast (closes : List ℚ) : Option ℚ :=
  if closes.length < 35 then none
  else
    some (ilocD (List.zipWith (fun x y => x - y)
      (List.zipWith (fun x y => x - y) (emaList 12 closes) (emaList 26 closes))
      (emaList 9 (List.zipWith (fun x y => x - y) (emaList 12 closes)
        (emaList 26 closes)))) 1)

/-- True range of a bar given the previous close. -/
def trVal (pc : ℚ) (b : Bar) : ℚ :=
  max (b.high - b.low) (max |b.high - pc| |b.low - pc|)

/-- True ranges of the bars after the first one. -/
def trList : List Bar → List ℚ
  | [] => []
  | [_] => []
  | a :: b :: t => trVal a.close b :: trList (b :: t)

/-- Modelled from the spec: ATR(14) = rolling simple mean of the true
range over the window, at the last bar
(`ta.volatility.AverageTrueRange(high, low, close)`, line 55, is not part
of this repository); `none` (unavailable) for fewer than 15 bars. -/
def atrLast (bars : List Bar) : Option ℚ :=
  if bars.length < 15 then none
  else some (((trList bars).reverse.take 14).sum / 14)

/-- Line 60: `volume.rolling(window=10).mean().iloc[-1]`; `none` (`NaN`)
when fewer than 10 entries exist. -/
def avgVol10 (vols : List ℚ) : Option ℚ :=
  if vols.length < 10 then none else some ((vols.reverse.take 10).sum / 10)

/-- Line 61: `volume.iloc[-1] > 1.5 * avg_volume` (a comparison against
`NaN` is false). -/
def volSpikeOf (vols : List ℚ) : Bool :=
  match avgVol10 vols with
  | some a => decide (ilocD vols 1 > 3 / 2 * a)
  | none => false

/-- Line 62: the gap is the close-to-close change when its absolute value
exceeds the ATR, else 0 (a comparison against `NaN` is false). -/
def gapOf (atr : Option ℚ) (cp pp : ℚ) : ℚ :=
  match atr with
  | some a => if |cp - pp| > a then cp - pp else 0
  | none => 0

/-- Lines 80-98: the nested pattern conditionals on the last five closes
`a = close[-5]`, `b = close[-4]`, `c = close[-3]`, `d = close[-2]`,
`e = close[-1]`. -/
def codeTable (a b c d e : ℚ) : String × String :=
  if c < b ∧ e > c then
    if e > d then ("Double Bottom", "Bullish") else ("None", "Neutral")
  else if b > c ∧ c < d ∧ e > d then
    if e > max b d then ("Inverse Head & Shoulders", "Bullish") else ("None", "Neutral")
  else if a > b ∧ b > c ∧ c < d ∧ d < e then ("Falling Wedge", "Bullish")
  else if a < b ∧ b < c ∧ c > d ∧ d > e then ("Rising Wedge", "Bearish")
  else if b < c ∧ c > d ∧ e < d then ("Head & Shoulders", "Bearish")
  else ("None", "Neutral")

/-- Lines 76-98: pattern detection, `("None", "Neutral")` for fewer than
5 closes. -/
def patternDetect (closes : List ℚ) : String × String :=
  if closes.length < 5 then ("None", "Neutral")
  else codeTable (ilocD closes 5) (ilocD closes 4) (ilocD closes 3)
    (ilocD closes 2) (ilocD closes 1)

/-- Modelled from the spec: the flat ordered rule table of section 4.2,
evaluated top to bottom with first-match-wins semantics. -/
def specTable (a b c d e : ℚ) : String × String :=
  if c < b ∧ e > c ∧ e > d then ("Double Bottom", "Bullish")
  else if b > c ∧ c < d ∧ e > d ∧ e > max b d then ("Inverse Head & Shoulders", "Bullish")
  else if a > b ∧ b > c ∧ c < d ∧ d < e then ("Falling Wedge", "Bullish")
  else if a < b ∧ b < c ∧ c > d ∧ d > e then ("Rising Wedge", "Bearish")
  else if b < c ∧ c > d ∧ e < d then ("Head & Shoulders", "Bearish")
  else ("None", "Neutral")

/-- Modelled from the spec: the Pattern Detector contract of section 4.2
(fewer than 5 closes → None/Neutral, else the ordered rule table). -/
def specPatternTable (closes : List ℚ) : String × String :=
  if closes.length < 5 then ("None", "Neutral")
  else specTable (ilocD closes 5) (ilocD closes 4) (ilocD closes 3)
    (ilocD closes 2) (ilocD closes 1)

/-- Lines 64-71: EMA9/EMA21 crossover detection. -/
def crossoverOf (closes : List ℚ) : String :=
  if ilocD (emaList 9 closes) 2 < ilocD (emaList 21 closes) 2 ∧
      ilocD (emaList 9 closes) 1 > ilocD (emaList 21 closes) 1 then "Bullish Crossover"
  else if ilocD (emaList 9 closes) 2 > ilocD (emaList 21 closes) 2 ∧
      ilocD (emaList 9 closes) 1 < ilocD (emaList 21 closes) 1 then "Bearish Crossover"
  else "None"

/-- Line 74: `40 < rsi < 60 and macd_diff > 0` (false when either value
is `NaN`). -/
def comboOf (rsi macd : Option ℚ) : Bool :=
  match rsi, macd with
  | some r, some m => decide (40 < r ∧ r < 60 ∧ 0 < m)
  | _, _ => false

/-- Lines 100-108: the composite signal label, comma-joined; `"None"`
when no condition triggered. -/
def signalLabelOf (crossover : String) (combo spike : Bool) : String :=
  let signals := (if crossover ≠ "None" then [crossover] else [])
      ++ (if combo then ["RSI+MACD Combo"] else [])
      ++ (if spike then ["Volume Spike"] else [])
  if signals = [] then "None" else String.intercalate ", " signals

/-- Whether `p` is an initial segment of `l`. -/
def charsStart : List Char → List Char → Bool
  | [], _ => true
  | _ :: _, [] => false
  | a :: as, b :: bs => a == b && charsStart as bs

/-- Whether `needle` occurs contiguously inside the second list. -/
def charsOccur (needle : List Char) : List Char → Bool
  | [] => charsStart needle []
  | b :: bs => charsStart needle (b :: bs) || charsOccur needle bs

/-- Python substring test `needle in hay`. -/
def containsSub (needle hay : String) : Bool := charsOccur needle.toList hay.toList

/-- Line 110: `prob = 80 if trend == "Bullish" and "Combo" in signal_label
else 60`. -/
def probOf (trend label : String) : ℕ :=
  if trend = "Bullish" ∧ containsSub "Combo" label then 80 else 60

/-- The record built for a series of at least two bars: the body of
lines 47-127 with the two `iloc` accesses (which cannot fail there)
resolved to their values. -/
def recordOf (now ticker : String) (bars : List Bar) : SignalRecord :=
  let closes := bars.map Bar.close
  let vols := bars.map Bar.volume
  let rsi := rsiLast closes
  let macd := macdDiffLast closes
  let atr := atrLast bars
  let cp := ilocD closes 1
  let pp := ilocD closes 2
  let pt := patternDetect closes
  let label := signalLabelOf (crossoverOf closes) (comboOf rsi macd) (volSpikeOf vols)
  { timestamp := now
    ticker := ticker
    pattern := pt.1
    trend := pt.2
    rsi := rsi.map round2
    macd := macd.map round2
    atr := atr.map round2
    volume := some (pyInt (ilocD vols 1))
    gap := if atr.isSome then round2 (gapOf atr cp pp) else 0
    currentPrice := round2 cp
    priceTargetUp := atr.map (fun a => round2 (cp + a * 2))
    priceTargetDown := atr.map (fun a => round2 (cp - a * 2))
    probability := probOf pt.2 label
    signals := label }

/-- Lines 47-127: the body of the per-ticker `try` block for a non-empty
series; the `prev_price` access `close.iloc[-2]` (line 59) raises for a
single-bar series and aborts the body. -/
def analyzeBody (now ticker : String) (bars : List Bar) : Except Unit SignalRecord := do
  let _ ← iloc (bars.map Bar.close) 1
  let _ ← iloc (bars.map Bar.close) 2
  Except.ok (recordOf now ticker bars)

/-- Lines 39-132: one iteration of the ticker loop.  An empty series is
skipped (`continue`, line 45); an exception inside the body is caught by
the `except` handler (lines 130-132) and the ticker is skipped. -/
def analyzeTicker (now ticker : String) (bars : List Bar) : Option SignalRecord :=
  if bars = [] then none
  else
    match analyzeBody now ticker bars with
    | .ok r => some r
    | .error _ => none

/-- Lines 36-133: `run_analysis`, with the data source (`fetch_stock_data`)
as a parameter and the wall-clock stamp `now` as a parameter. -/
def runAnalysis (now : String) (fetch : String → List Bar) (tickers : List String) :
    List SignalRecord :=
  (tickers.map (fun t => (analyzeTicker now t (fetch t)).toList)).flatten

/-- The fields of a record other than the wall-clock stamp. -/
def stripTs (r : SignalRecord) : SignalRecord := { r with timestamp := "" }

/-! ## Basic facts about the pipeline -/

theorem iloc_ok (l : List ℚ) (k : ℕ) (h1 : 1 ≤ k) (h2 : k ≤ l.length) :
    iloc l k = .ok (ilocD l k) := by
  simp [iloc, h1, h2]

/-- The per-ticker analysis emits exactly the record `recordOf` for a
series of at least two bars, and nothing otherwise (an empty series is
skipped at line 42, a single-bar series dies on `close.iloc[-2]` at
line 59 and is skipped by the handler). -/
theorem analyzeTicker_eq (now tk : String) (bars : List Bar) :
    analyzeTicker now tk bars =
      if 2 ≤ bars.length then some (recordOf now tk bars) else none := by
  have hlen : (bars.map Bar.close).length = bars.length := List.length_map _ _
  by_cases h : 2 ≤ bars.length
  · have hne : bars ≠ [] := by
      intro he
      rw [he] at h
      simp at h
    rw [if_pos h]
    unfold analyzeTicker analyzeBody
    rw [if_neg hne, iloc_ok _ 1 (by omega) (by omega), iloc_ok _ 2 (by omega) (by omega)]
    rfl
  · rw [if_neg h]
    unfold analyzeTicker analyzeBody
    rcases bars with _ | ⟨b, bars'⟩
    · simp
    · rcases bars' with _ | ⟨b2, bars''⟩
      · rw [if_neg (by simp), iloc_ok _ 1 (by simp) (by simp)]
        have h2 : iloc ([b].map Bar.close) 2 = .error () := by
          simp [iloc]
        rw [h2]
        rfl
      · exfalso
        simp at h

theorem recordOf_trend (now tk : String) (bars : List Bar) :
    (recordOf now tk bars).trend = (patternDetect (bars.map Bar.close)).2 := rfl

theorem recordOf_pattern (now tk : String) (bars : List Bar) :
    (recordOf now tk bars).pattern = (patternDetect (bars.map Bar.close)).1 := rfl

theorem recordOf_signals (now tk : String) (bars : List Bar) :
    (recordOf now tk bars).signals =
      signalLabelOf (crossoverOf (bars.map Bar.close))
        (comboOf (rsiLast (bars.map Bar.close)) (macdDiffLast (bars.map Bar.close)))
        (volSpikeOf (bars.map Bar.volume)) := rfl

theorem recordOf_probability (now tk : String) (bars : List Bar) :
    (recordOf now tk bars).probability =
      probOf (recordOf now tk bars).trend (recordOf now tk bars).signals := rfl

theorem recordOf_rsi (now tk : String) (bars : List Bar) :
    (recordOf now tk bars).rsi = (rsiLast (bars.map Bar.close)).map round2 := rfl

theorem recordOf_macd (now tk : String) (bars : List Bar) :
    (recordOf now tk bars).macd = (macdDiffLast (bars.map Bar.close)).map round2 := rfl

theorem recordOf_atr (now tk : String) (bars : List Bar) :
    (recordOf now tk bars).atr = (atrLast bars).map round2 := rfl

theorem recordOf_targetUp (now tk : String) (bars : List Bar) :
    (recordOf now tk bars).priceTargetUp =
      (atrLast bars).map (fun a => round2 (ilocD (bars.map Bar.close) 1 + a * 2)) := rfl

theorem recordOf_targetDown (now tk : String) (bars : List Bar) :
    (recordOf now tk bars).priceTargetDown =
      (atrLast bars).map (fun a => round2 (ilocD (bars.map Bar.close) 1 - a * 2)) := rfl

theorem recordOf_gap (now tk : String) (bars : List Bar) :
    (recordOf now tk bars).gap =
      (if (atrLast bars).isSome then
        round2 (gapOf (atrLast bars) (ilocD (bars.map Bar.close) 1)
          (ilocD (bars.map Bar.close) 2)) else 0) := rfl

/-! ## The pattern detector -/

/-- The nested conditionals of lines 80-98 compute exactly the spec's
flat first-match-wins rule table. -/
theorem table_eq (a b c d e : ℚ) : codeTable a b c d e = specTable a b c d e := by
  unfold codeTable specTable
  simp only [gt_iff_lt]
  by_cases h1 : c < b ∧ c < e
  · by_cases h2 : d < e
    · rw [if_pos h1, if_pos h2, if_pos ⟨h1.1, h1.2, h2⟩]
    · have hb : ¬ b < c := lt_asymm h1.1
      rw [if_pos h1, if_neg h2, if_neg (by tauto : ¬ (c < b ∧ c < e ∧ d < e)),
        if_neg (by tauto : ¬ (c < b ∧ c < d ∧ d < e ∧ max b d < e)),
        if_neg (by tauto : ¬ (b < a ∧ c < b ∧ c < d ∧ d < e)),
        if_neg (by tauto : ¬ (a < b ∧ b < c ∧ d < c ∧ e < d)),
        if_neg (by tauto : ¬ (b < c ∧ d < c ∧ e < d))]
  · have hg2 : ¬ (c < b ∧ c < d ∧ d < e) := by
      rintro ⟨x, y, z⟩
      exact h1 ⟨x, lt_trans y z⟩
    have hg2s : ¬ (c < b ∧ c < d ∧ d < e ∧ max b d < e) := by
      rintro ⟨x, y, z, _⟩
      exact hg2 ⟨x, y, z⟩
    rw [if_neg h1, if_neg hg2, if_neg (by tauto : ¬ (c < b ∧ c < e ∧ d < e)), if_neg hg2s]

theorem patternDetect_eq_specTable (closes : List ℚ) :
    patternDetect closes = specPatternTable closes := by
  unfold patternDetect specPatternTable
  split
  · rfl
  · exact table_eq _ _ _ _ _

/-- C1: the Pattern Detector agrees with the spec's ordered rule table
(first match wins), returns None/Neutral for fewer than 5 closes, and on
`[10, 9, 8, 9, 10]` the Double Bottom rule fires with a Bullish trend. -/
theorem pattern_follows_spec_rule_table :
    (∀ closes : List ℚ, patternDetect closes = specPatternTable closes) ∧
    (∀ closes : List ℚ, closes.length < 5 → patternDetect closes = ("None", "Neutral")) ∧
    patternDetect [10, 9, 8, 9, 10] = ("Double Bottom", "Bullish") := by
  refine ⟨patternDetect_eq_specTable, ?_, by decide⟩
  intro closes h
  unfold patternDetect
  rw [if_pos h]

theorem pattern_follows_spec_rule_table_witness :
    ([(1 : ℚ), 2, 3] : List ℚ).length < 5 ∧
      patternDetect [1, 2, 3] = ("None", "Neutral") :=
  ⟨by decide, pattern_follows_spec_rule_table.2.1 [1, 2, 3] (by decide)⟩

theorem codeTable_fst_ne_ihs (a b c d e : ℚ) :
    (codeTable a b c d e).1 ≠ "Inverse Head & Shoulders" := by
  unfold codeTable
  by_cases h1 : c < b ∧ e > c
  · rw [if_pos h1]
    split <;> decide
  · have hg2 : ¬ (b > c ∧ c < d ∧ e > d) := by
      rintro ⟨x, y, z⟩
      exact h1 ⟨x, lt_trans y z⟩
    rw [if_neg h1, if_neg hg2]
    split_ifs <;> decide

/-- C10: the Inverse Head & Shoulders conditions imply the Double Bottom
conditions checked before them, so the detector can never return the
Inverse Head & Shoulders label. -/
theorem ihs_unreachable :
    (∀ a b c d e : ℚ,
      (b > c ∧ c < d ∧ e > d ∧ e > max b d) → (c < b ∧ e > c ∧ e > d)) ∧
    (∀ closes : List ℚ, (patternDetect closes).1 ≠ "Inverse Head & Shoulders") := by
  constructor
  · rintro _ b c d e ⟨h1, h2, h3, _⟩
    exact ⟨h1, lt_trans h2 h3, h3⟩
  · intro closes
    unfold patternDetect
    split
    · decide
    · exact codeTable_fst_ne_ihs _ _ _ _ _

theorem ihs_unreachable_witness :
    ((3 : ℚ) > 1 ∧ (1 : ℚ) < 2 ∧ (4 : ℚ) > 2 ∧ (4 : ℚ) > max 3 2) ∧
      ((1 : ℚ) < 3 ∧ (4 : ℚ) > 1 ∧ (4 : ℚ) > 2) :=
  ⟨by norm_num, ihs_unreachable.1 0 3 1 2 4 (by norm_num)⟩

theorem getD_take (l : List ℚ) (n i : ℕ) (h : i < n) :
    (l.take n).getD i 0 = l.getD i 0 := by
  induction l generalizing n i with
  | nil => simp
  | cons x xs ih =>
    cases n with
    | zero => omega
    | succ m =>
      cases i with
      | zero => simp
      | succ j => simpa using ih m j (by omega)

/-- C8: the detector reads only the last five closes, so any two series
with the same last-five tail classify identically. -/
theorem pattern_pure_last5 (xs ys : List ℚ)
    (h : xs.reverse.take 5 = ys.reverse.take 5) :
    patternDetect xs = patternDetect ys := by
  have hmin : min 5 xs.length = min 5 ys.length := by
    have hlen := congrArg List.length h
    simpa using hlen
  unfold patternDetect
  by_cases h5 : xs.length < 5
  · rw [if_pos h5, if_pos (by omega)]
  · rw [if_neg h5, if_neg (by omega)]
    have key : ∀ k : ℕ, 1 ≤ k → k ≤ 5 → ilocD xs k = ilocD ys k := by
      intro k hk1 hk5
      unfold ilocD
      rw [← getD_take xs.reverse 5 (k - 1) (by omega),
        ← getD_take ys.reverse 5 (k - 1) (by omega), h]
    rw [key 5 (by omega) (by omega), key 4 (by omega) (by omega),
      key 3 (by omega) (by omega), key 2 (by omega) (by omega),
      key 1 (by omega) (by omega)]

theorem pattern_pure_last5_witness :
    ([(1 : ℚ), 2, 3, 4, 5, 6] : List ℚ).reverse.take 5 =
        ([(9 : ℚ), 2, 3, 4, 5, 6] : List ℚ).reverse.take 5 ∧
      patternDetect [1, 2, 3, 4, 5, 6] = patternDetect [9, 2, 3, 4, 5, 6] :=
  ⟨by decide, pattern_pure_last5 [1, 2, 3, 4, 5, 6] [9, 2, 3, 4, 5, 6] (by decide)⟩

/-! ## Determinism, probability and price targets -/

/-- C5: apart from the wall-clock stamp, the record is a function of the
bar series alone — running the analysis at two different times yields
identical fields. -/
theorem analysis_deterministic (t1 t2 tk : String) (bars : List Bar) :
    (analyzeTicker t1 tk bars).map stripTs = (analyzeTicker t2 tk bars).map stripTs := by
  rw [analyzeTicker_eq, analyzeTicker_eq]
  by_cases h : 2 ≤ bars.length
  · rw [if_pos h, if_pos h]
    rfl
  · rw [if_neg h, if_neg h]

theorem probOf_eq_80_iff (trend label : String) :
    probOf trend label = 80 ↔ (trend = "Bullish" ∧ containsSub "Combo" label = true) := by
  unfold probOf
  split_ifs with h
  · simp [h]
  · simp [h]

theorem probOf_eq_60 (trend label : String)
    (h : ¬ (trend = "Bullish" ∧ containsSub "Combo" label = true)) :
    probOf trend label = 60 := by
  unfold probOf
  rw [if_neg h]

/-- C6: an emitted record carries probability 80 exactly when its trend
is Bullish and its signal list contains the substring "Combo", and
probability 60 otherwise; in particular, RSI 50 and MACD histogram 1.2
make the combo fire, and with a Bullish trend the probability is 80. -/
theorem probability_iff_combo :
    (∀ now tk : String, ∀ bars : List Bar, ∀ r : SignalRecord,
        analyzeTicker now tk bars = some r →
        ((r.probability = 80 ↔
            (r.trend = "Bullish" ∧ containsSub "Combo" r.signals = true)) ∧
          (¬ (r.trend = "Bullish" ∧ containsSub "Combo" r.signals = true) →
            r.probability = 60))) ∧
    comboOf (some 50) (some (6 / 5)) = true ∧
    probOf "Bullish" (signalLabelOf "None" true false) = 80 := by
  refine ⟨?_, by simp only [comboOf, decide_eq_true_eq]; norm_num, by decide⟩
  intro now tk bars r h
  rw [analyzeTicker_eq] at h
  by_cases h2 : 2 ≤ bars.length
  · rw [if_pos h2, Option.some_inj] at h
    subst h
    rw [recordOf_probability]
    exact ⟨probOf_eq_80_iff _ _, probOf_eq_60 _ _⟩
  · rw [if_neg h2] at h
    exact absurd h (by simp)

def demoBars2 : List Bar := [⟨10, 9, 9, 100⟩, ⟨11, 10, 10, 200⟩]

theorem probability_iff_combo_witness :
    ((recordOf "t" "A" demoBars2).probability = 80 ↔
      ((recordOf "t" "A" demoBars2).trend = "Bullish" ∧
        containsSub "Combo" (recordOf "t" "A" demoBars2).signals = true)) ∧
    (¬ ((recordOf "t" "A" demoBars2).trend = "Bullish" ∧
        containsSub "Combo" (recordOf "t" "A" demoBars2).signals = true) →
      (recordOf "t" "A" demoBars2).probability = 60) :=
  probability_iff_combo.1 "t" "A" demoBars2 (recordOf "t" "A" demoBars2)
    (by rw [analyzeTicker_eq]; rfl)

/-- C7: an emitted record's upside and downside price targets are the
current close plus and minus twice the ATR, rounded to two decimals, and
they are unavailable exactly when the ATR is unavailable. -/
theorem price_targets_from_atr :
    ∀ now tk : String, ∀ bars : List Bar, ∀ r : SignalRecord,
      analyzeTicker now tk bars = some r →
      ((r.priceTargetUp = none ↔ atrLast bars = none) ∧
       (r.priceTargetDown = none ↔ atrLast bars = none) ∧
       ∀ a : ℚ, atrLast bars = some a →
         r.priceTargetUp = some (round2 (ilocD (bars.map Bar.close) 1 + a * 2)) ∧
         r.priceTargetDown = some (round2 (ilocD (bars.map Bar.close) 1 - a * 2))) := by
  intro now tk bars r h
  rw [analyzeTicker_eq] at h
  by_cases h2 : 2 ≤ bars.length
  · rw [if_pos h2, Option.some_inj] at h
    subst h
    rw [recordOf_targetUp, recordOf_targetDown]
    refine ⟨by simp, by simp, ?_⟩
    intro a ha
    rw [ha]
    exact ⟨rfl, rfl⟩
  · rw [if_neg h2] at h
    exact absurd h (by simp)

theorem price_targets_from_atr_witness :
    ((recordOf "t" "A" demoBars2).priceTargetUp = none ↔ atrLast demoBars2 = none) ∧
      ((recordOf "t" "A" demoBars2).priceTargetDown = none ↔ atrLast demoBars2 = none) ∧
      ∀ a : ℚ, atrLast demoBars2 = some a →
        (recordOf "t" "A" demoBars2).priceTargetUp =
          some (round2 (ilocD (demoBars2.map Bar.close) 1 + a * 2)) ∧
        (recordOf "t" "A" demoBars2).priceTargetDown =
          some (round2 (ilocD (demoBars2.map Bar.close) 1 - a * 2)) :=
  price_targets_from_atr "t" "A" demoBars2 (recordOf "t" "A" demoBars2)
    (by rw [analyzeTicker_eq]; rfl)

/-! ## Short series -/

theorem diffs_length (l : List ℚ) : (diffs l).length = l.length - 1 := by
  induction l with
  | nil => rfl
  | cons a t ih =>
    cases t with
    | nil => rfl
    | cons b t2 =>
      show ((b - a) :: diffs (b :: t2)).length = (a :: b :: t2).length - 1
      simp only [List.length_cons, ih]
      omega

theorem wilder_none (w : ℕ) (l : List ℚ) (h : l.length < w) : wilder w l = none := by
  unfold wilder
  rw [if_pos (Or.inl h)]

theorem rsiLast_none (closes : List ℚ) (h : closes.length < 15) :
    rsiLast closes = none := by
  unfold rsiLast
  rw [wilder_none 14 _ (by simp [diffs_length]; omega)]

theorem macdDiffLast_none (closes : List ℚ) (h : closes.length < 35) :
    macdDiffLast closes = none := by
  unfold macdDiffLast
  rw [if_pos h]

theorem atrLast_none (bars : List Bar) (h : bars.length < 15) :
    atrLast bars = none := by
  unfold atrLast
  rw [if_pos h]

theorem crossoverOf_cases (closes : List ℚ) :
    crossoverOf closes = "Bullish Crossover" ∨ crossoverOf closes = "Bearish Crossover" ∨
      crossoverOf closes = "None" := by
  unfold crossoverOf
  split_ifs <;> simp

theorem label_no_combo (cr : String) (spike : Bool)
    (hcr : cr = "Bullish Crossover" ∨ cr = "Bearish Crossover" ∨ cr = "None") :
    containsSub "Combo" (signalLabelOf cr false spike) = false := by
  rcases hcr with h | h | h <;> subst h <;> cases spike <;> decide

theorem wilder_some (w : ℕ) (l : List ℚ) (hw : 0 < w) (h : w ≤ l.length) :
    ∃ v, wilder w l = some v := by
  unfold wilder
  rw [if_neg (by omega)]
  exact ⟨_, rfl⟩

theorem rsiLast_isSome (closes : List ℚ) (h : 15 ≤ closes.length) :
    (rsiLast closes).isSome = true := by
  unfold rsiLast
  obtain ⟨g, hg⟩ := wilder_some 14 ((diffs closes).map (fun d => max d 0))
    (by omega) (by simp [diffs_length]; omega)
  obtain ⟨lo, hlo⟩ := wilder_some 14 ((diffs closes).map (fun d => max (-d) 0))
    (by omega) (by simp [diffs_length]; omega)
  rw [hg, hlo]
  rfl

theorem isSome_map_round2 (o : Option ℚ) : (o.map round2).isSome = o.isSome := by
  cases o <;> rfl

theorem atrLast_isSome (bars : List Bar) (h : 15 ≤ bars.length) :
    (atrLast bars).isSome = true := by
  unfold atrLast
  rw [if_neg (by omega)]
  rfl

/-- The EMA9/EMA21 crossover on the three closes `10, 9, 20`:
EMA9 moves from `49/5` below EMA21's `109/11` to `296/25` above
EMA21's `1310/121`, a Bullish Crossover on a 3-bar series. -/
theorem crossoverOf_short_example :
    crossoverOf [(10 : ℚ), 9, 20] = "Bullish Crossover" := by
  have e9p : ilocD (emaList 9 [(10 : ℚ), 9, 20]) 2 =
      emaStep (2 / (((9 : ℕ) : ℚ) + 1)) 10 9 := rfl
  have e9l : ilocD (emaList 9 [(10 : ℚ), 9, 20]) 1 =
      emaStep (2 / (((9 : ℕ) : ℚ) + 1))
        (emaStep (2 / (((9 : ℕ) : ℚ) + 1)) 10 9) 20 := rfl
  have e21p : ilocD (emaList 21 [(10 : ℚ), 9, 20]) 2 =
      emaStep (2 / (((21 : ℕ) : ℚ) + 1)) 10 9 := rfl
  have e21l : ilocD (emaList 21 [(10 : ℚ), 9, 20]) 1 =
      emaStep (2 / (((21 : ℕ) : ℚ) + 1))
        (emaStep (2 / (((21 : ℕ) : ℚ) + 1)) 10 9) 20 := rfl
  have hv9p : emaStep (2 / (((9 : ℕ) : ℚ) + 1)) 10 9 = 49 / 5 := by
    unfold emaStep
    norm_num
  have hv21p : emaStep (2 / (((21 : ℕ) : ℚ) + 1)) 10 9 = 109 / 11 := by
    unfold emaStep
    norm_num
  have hv9l : emaStep (2 / (((9 : ℕ) : ℚ) + 1)) (49 / 5) 20 = 296 / 25 := by
    unfold emaStep
    norm_num
  have hv21l : emaStep (2 / (((21 : ℕ) : ℚ) + 1)) (109 / 11) 20 = 1310 / 121 := by
    unfold emaStep
    norm_num
  unfold crossoverOf
  simp only [e9p, e9l, e21p, e21l, hv9p, hv21p, hv9l, hv21l]
  rw [if_pos (by norm_num : (49 : ℚ) / 5 < 109 / 11 ∧ (296 : ℚ) / 25 > 1310 / 121)]

/-- A 3-bar series whose closes `10, 9, 20` produce an EMA crossover. -/
def demoBars3 : List Bar := [⟨10, 10, 10, 100⟩, ⟨9, 9, 9, 100⟩, ⟨20, 20, 20, 100⟩]

/-- C2 counterexample.  First part: a single-bar series is non-empty and
shorter than every indicator window, yet the loop emits no record for
it — `close.iloc[-2]` at line 59 raises `IndexError`, which the
per-ticker handler catches by skipping the ticker.  Second part: on a
3-bar series (also shorter than every indicator window) the emitted
record carries a computed "Bullish Crossover" signal, so the crossover
is not marked unavailable on short series. -/
theorem short_series_no_record_cex :
    ((([⟨10, 9, 9, 100⟩] : List Bar) ≠ []) ∧
      analyzeTicker "t" "A" [⟨10, 9, 9, 100⟩] = none) ∧
    (demoBars3.length < 15 ∧
      analyzeTicker "t" "A" demoBars3 = some (recordOf "t" "A" demoBars3) ∧
      (recordOf "t" "A" demoBars3).signals = "Bullish Crossover") := by
  refine ⟨⟨by decide, by rw [analyzeTicker_eq]; rfl⟩, by decide,
    by rw [analyzeTicker_eq]; rfl, ?_⟩
  rw [recordOf_signals]
  have hm : demoBars3.map Bar.close = [(10 : ℚ), 9, 20] := rfl
  have hc : comboOf (rsiLast [(10 : ℚ), 9, 20]) (macdDiffLast [(10 : ℚ), 9, 20]) = false := rfl
  have hv : volSpikeOf (demoBars3.map Bar.volume) = false := rfl
  rw [hm, hc, hv, crossoverOf_short_example]
  decide

/-- C2 amended: for a series of at least 2 bars and fewer than 15, the
analysis does not raise — RSI, MACD histogram and ATR are unavailable,
the price targets are unavailable, the momentum combo is off (no "Combo"
substring in the signal list) — and a record is still emitted; for a
series of 15 to 34 bars only the MACD histogram is unavailable, while
RSI, ATR and both price targets are available, the combo is still off,
and a record is emitted.  (A single-bar series instead dies on
`close.iloc[-2]` and is skipped, and the EMA crossover is computed from
2 bars on rather than being marked unavailable.) -/
theorem short_series_unavailable (now tk : String) (bars : List Bar)
    (h2 : 2 ≤ bars.length) :
    (bars.length < 15 →
      analyzeTicker now tk bars = some (recordOf now tk bars) ∧
      (recordOf now tk bars).rsi = none ∧
      (recordOf now tk bars).macd = none ∧
      (recordOf now tk bars).atr = none ∧
      (recordOf now tk bars).priceTargetUp = none ∧
      (recordOf now tk bars).priceTargetDown = none ∧
      containsSub "Combo" (recordOf now tk bars).signals = false) ∧
    (15 ≤ bars.length → bars.length < 35 →
      analyzeTicker now tk bars = some (recordOf now tk bars) ∧
      (recordOf now tk bars).macd = none ∧
      (recordOf now tk bars).rsi.isSome = true ∧
      (recordOf now tk bars).atr.isSome = true ∧
      (recordOf now tk bars).priceTargetUp.isSome = true ∧
      (recordOf now tk bars).priceTargetDown.isSome = true ∧
      containsSub "Combo" (recordOf now tk bars).signals = false) := by
  have hclen : (bars.map Bar.close).length = bars.length := List.length_map _ _
  constructor
  · intro h15
    have hrsi : rsiLast (bars.map Bar.close) = none := rsiLast_none _ (by omega)
    have hmacd : macdDiffLast (bars.map Bar.close) = none := macdDiffLast_none _ (by omega)
    have hatr : atrLast bars = none := atrLast_none _ (by omega)
    refine ⟨by rw [analyzeTicker_eq, if_pos h2], ?_, ?_, ?_, ?_, ?_, ?_⟩
    · rw [recordOf_rsi, hrsi]
      rfl
    · rw [recordOf_macd, hmacd]
      rfl
    · rw [recordOf_atr, hatr]
      rfl
    · rw [recordOf_targetUp, hatr]
      rfl
    · rw [recordOf_targetDown, hatr]
      rfl
    · rw [recordOf_signals, hrsi]
      have hcombo : comboOf none (macdDiffLast (bars.map Bar.close)) = false := rfl
      rw [hcombo]
      exact label_no_combo _ _ (crossoverOf_cases _)
  · intro h15 h35
    have hmacd : macdDiffLast (bars.map Bar.close) = none := macdDiffLast_none _ (by omega)
    have hatrs : (atrLast bars).isSome = true := atrLast_isSome _ (by omega)
    refine ⟨by rw [analyzeTicker_eq, if_pos h2], ?_, ?_, ?_, ?_, ?_, ?_⟩
    · rw [recordOf_macd, hmacd]
      rfl
    · rw [recordOf_rsi, isSome_map_round2]
      exact rsiLast_isSome _ (by omega)
    · rw [recordOf_atr, isSome_map_round2]
      exact hatrs
    · rw [recordOf_targetUp]
      cases hx : atrLast bars with
      | none => rw [hx] at hatrs; exact absurd hatrs (by simp)
      | some a => rfl
    · rw [recordOf_targetDown]
      cases hx : atrLast bars with
      | none => rw [hx] at hatrs; exact absurd hatrs (by simp)
      | some a => rfl
    · rw [recordOf_signals]
      have hcombo : ∀ x : Option ℚ, comboOf x (macdDiffLast (bars.map Bar.close)) = false := by
        intro x
        rw [hmacd]
        cases x <;> rfl
      rw [hcombo]
      exact label_no_combo _ _ (crossoverOf_cases _)

theorem short_series_unavailable_witness :
    ((2 ≤ demoBars2.length ∧ demoBars2.length < 15) ∧
      (analyzeTicker "t" "A" demoBars2 = some (recordOf "t" "A" demoBars2) ∧
        (recordOf "t" "A" demoBars2).rsi = none ∧
        (recordOf "t" "A" demoBars2).macd = none ∧
        (recordOf "t" "A" demoBars2).atr = none ∧
        (recordOf "t" "A" demoBars2).priceTargetUp = none ∧
        (recordOf "t" "A" demoBars2).priceTargetDown = none ∧
        containsSub "Combo" (recordOf "t" "A" demoBars2).signals = false)) ∧
    ((2 ≤ (List.replicate 20 (⟨10, 10, 10, 100⟩ : Bar)).length ∧
        15 ≤ (List.replicate 20 (⟨10, 10, 10, 100⟩ : Bar)).length ∧
        (List.replicate 20 (⟨10, 10, 10, 100⟩ : Bar)).length < 35) ∧
      (analyzeTicker "t" "A" (List.replicate 20 ⟨10, 10, 10, 100⟩) =
          some (recordOf "t" "A" (List.replicate 20 ⟨10, 10, 10, 100⟩)) ∧
        (recordOf "t" "A" (List.replicate 20 ⟨10, 10, 10, 100⟩)).macd = none ∧
        (recordOf "t" "A" (List.replicate 20 ⟨10, 10, 10, 100⟩)).rsi.isSome = true ∧
        (recordOf "t" "A" (List.replicate 20 ⟨10, 10, 10, 100⟩)).atr.isSome = true ∧
        (recordOf "t" "A" (List.replicate 20 ⟨10, 10, 10, 100⟩)).priceTargetUp.isSome = true ∧
        (recordOf "t" "A" (List.replicate 20 ⟨10, 10, 10, 100⟩)).priceTargetDown.isSome = true ∧
        containsSub "Combo"
          (recordOf "t" "A" (List.replicate 20 ⟨10, 10, 10, 100⟩)).signals = false)) :=
  ⟨⟨⟨by decide, by decide⟩,
      (short_series_unavailable "t" "A" demoBars2 (by decide)).1 (by decide)⟩,
    ⟨⟨by decide, by decide, by decide⟩,
      (short_series_unavailable "t" "A" (List.replicate 20 ⟨10, 10, 10, 100⟩)
        (by decide)).2 (by decide) (by decide)⟩⟩

/-! ## Batch behavior -/

/-- The data source used by the concrete batch scenario: ticker "XYZ" has
an empty series, every other ticker a valid two-bar series. -/
def demoFetch (t : String) : List Bar := if t = "XYZ" then [] else demoBars2

/-- C4: an empty series yields no record, its ticker is simply skipped,
and the remaining tickers' records are unchanged; a concrete batch of
five tickers with one empty series yields exactly 4 records. -/
theorem empty_series_skipped :
    (∀ now tk : String, analyzeTicker now tk [] = none) ∧
    (∀ (now : String) (fetch : String → List Bar) (pre post : List String) (t : String),
      fetch t = [] →
      runAnalysis now fetch (pre ++ t :: post) = runAnalysis now fetch (pre ++ post)) ∧
    (runAnalysis "t" demoFetch ["AAPL", "XYZ", "MSFT", "TSLA", "GOOGL"]).length = 4 := by
  refine ⟨fun now tk => rfl, ?_, ?_⟩
  · intro now fetch pre post t h
    unfold runAnalysis
    rw [List.map_append, List.map_append, List.map_cons, List.flatten_append,
      List.flatten_append, List.flatten_cons, h]
    rfl
  · rfl

theorem empty_series_skipped_witness :
    demoFetch "XYZ" = [] ∧
      runAnalysis "t" demoFetch (["AAPL"] ++ "XYZ" :: ["MSFT"]) =
        runAnalysis "t" demoFetch (["AAPL"] ++ ["MSFT"]) :=
  ⟨by decide, empty_series_skipped.2.1 "t" demoFetch ["AAPL"] ["MSFT"] "XYZ" (by decide)⟩

/-! ## Flat series -/

theorem diffs_replicate (n : ℕ) (c : ℚ) :
    diffs (List.replicate n c) = List.replicate (n - 1) 0 := by
  induction n with
  | zero => rfl
  | succ m ih =>
    cases m with
    | zero => rfl
    | succ k =>
      show (c - c) :: diffs (List.replicate (k + 1) c) = List.replicate (k + 1) 0
      rw [ih, sub_self]
      simp [List.replicate_succ]

theorem foldl_wilder_zero (w j : ℕ) :
    (List.replicate j (0 : ℚ)).foldl
      (fun avg x => (avg * ((w : ℚ) - 1) + x) / (w : ℚ)) 0 = 0 := by
  induction j with
  | zero => rfl
  | succ k ih =>
    rw [List.replicate_succ, List.foldl_cons, zero_mul, zero_add, zero_div]
    exact ih

theorem sum_replicate_zero (j : ℕ) : (List.replicate j (0 : ℚ)).sum = 0 := by
  induction j with
  | zero => rfl
  | succ k ih => simp [List.replicate_succ, ih]

theorem wilder_replicate_zero (w m : ℕ) (hw : 0 < w) (h : w ≤ m) :
    wilder w (List.replicate m (0 : ℚ)) = some 0 := by
  unfold wilder
  rw [if_neg (by simp; omega)]
  rw [List.take_replicate, List.drop_replicate]
  rw [sum_replicate_zero, zero_div, foldl_wilder_zero]

theorem rsiLast_flat (n : ℕ) (c : ℚ) (h : 15 ≤ n) :
    rsiLast (List.replicate n c) = some 50 := by
  unfold rsiLast
  rw [diffs_replicate, List.map_replicate, List.map_replicate]
  have h1 : max (0 : ℚ) 0 = 0 := max_self 0
  have h2 : max (-(0 : ℚ)) 0 = 0 := by rw [neg_zero, max_self]
  rw [h1, h2, wilder_replicate_zero 14 (n - 1) (by omega) (by omega)]
  simp

theorem emaGo_const (α c : ℚ) (t : List ℚ) (ht : ∀ x ∈ t, x = c) :
    emaGo α c t = List.replicate (t.length + 1) c := by
  induction t with
  | nil => rfl
  | cons x xs ih =>
    have hx : x = c := ht x (List.mem_cons_self x xs)
    have hstep : emaStep α c x = c := by
      rw [hx]
      unfold emaStep
      ring
    show c :: emaGo α (emaStep α c x) xs = List.replicate (xs.length + 1 + 1) c
    rw [hstep, ih (fun y hy => ht y (List.mem_cons_of_mem _ hy))]
    simp [List.replicate_succ]

theorem emaList_replicate (span n : ℕ) (c : ℚ) :
    emaList span (List.replicate n c) = List.replicate n c := by
  cases n with
  | zero => rfl
  | succ m =>
    rw [List.replicate_succ]
    show emaGo (2 / ((span : ℚ) + 1)) c (List.replicate m c) = c :: List.replicate m c
    rw [emaGo_const _ _ _ (fun x hx => List.eq_of_mem_replicate hx)]
    simp [List.replicate_succ]

theorem zipWith_sub_replicate (n : ℕ) (a b : ℚ) :
    List.zipWith (fun x y => x - y) (List.replicate n a) (List.replicate n b) =
      List.replicate n (a - b) := by
  induction n with
  | zero => rfl
  | succ m ih => simp [List.replicate_succ, ih]

theorem getD_replicate (n i : ℕ) (c d : ℚ) (h : i < n) :
    (List.replicate n c).getD i d = c := by
  induction n generalizing i with
  | zero => omega
  | succ m ih =>
    cases i with
    | zero => rfl
    | succ j =>
      have hj := ih j (by omega)
      simpa [List.replicate_succ] using hj

theorem ilocD_replicate (n k : ℕ) (c : ℚ) (h1 : 1 ≤ k) (h2 : k ≤ n) :
    ilocD (List.replicate n c) k = c := by
  unfold ilocD
  rw [List.reverse_replicate]
  exact getD_replicate n (k - 1) c 0 (by omega)

theorem macdDiffLast_flat (n : ℕ) (c : ℚ) (h : 35 ≤ n) :
    macdDiffLast (List.replicate n c) = some 0 := by
  unfold macdDiffLast
  rw [if_neg (by rw [List.length_replicate]; omega)]
  rw [emaList_replicate, emaList_replicate, zipWith_sub_replicate, sub_self,
    emaList_replicate, zipWith_sub_replicate, sub_self,
    ilocD_replicate n 1 0 (by omega) (by omega)]

theorem gapOf_self (atr : Option ℚ) (c : ℚ) : gapOf atr c c = 0 := by
  cases atr with
  | none => rfl
  | some a => simp [gapOf]

theorem round2_zero : round2 0 = 0 := by
  have h0 : roundHalfEven 0 = 0 := by
    unfold roundHalfEven
    norm_num
  unfold round2
  rw [zero_mul, h0]
  norm_num

theorem round2_fifty : round2 50 = 50 := by
  have h5 : ((5000 : ℤ) : ℚ) = ((50 : ℚ) * 100) := by norm_num
  have h0 : roundHalfEven (50 * 100) = 5000 := by
    unfold roundHalfEven
    rw [← h5, Int.floor_intCast]
    norm_num
  unfold round2
  rw [h0]
  norm_num

/-- C3: on a strictly flat close series of 35 or more bars a record is
emitted with RSI 50 (both Wilder averages vanish), MACD histogram 0 and
gap 0. -/
theorem flat_series_neutral (now tk : String) (bars : List Bar) (c : ℚ)
    (hlen : 35 ≤ bars.length) (hflat : ∀ b ∈ bars, b.close = c) :
    analyzeTicker now tk bars = some (recordOf now tk bars) ∧
    (recordOf now tk bars).rsi = some 50 ∧
    (recordOf now tk bars).macd = some 0 ∧
    (recordOf now tk bars).gap = 0 := by
  have hclen : (bars.map Bar.close).length = bars.length := List.length_map _ _
  have hrep : bars.map Bar.close = List.replicate (bars.map Bar.close).length c := by
    rw [List.eq_replicate_length]
    intro x hx
    obtain ⟨b, hb, rfl⟩ := List.mem_map.mp hx
    exact hflat b hb
  refine ⟨by rw [analyzeTicker_eq, if_pos (by omega)], ?_, ?_, ?_⟩
  · rw [recordOf_rsi, hrep, rsiLast_flat _ _ (by omega)]
    simp [round2_fifty]
  · rw [recordOf_macd, hrep, macdDiffLast_flat _ _ (by omega)]
    simp [round2_zero]
  · rw [recordOf_gap, hrep, ilocD_replicate _ 1 _ (by omega) (by omega),
      ilocD_replicate _ 2 _ (by omega) (by omega), gapOf_self, round2_zero]
    simp

theorem flat_series_neutral_witness :
    (35 ≤ (List.replicate 35 (⟨10, 10, 10, 100⟩ : Bar)).length ∧
        ∀ b ∈ List.replicate 35 (⟨10, 10, 10, 100⟩ : Bar), b.close = 10) ∧
      (analyzeTicker "t" "A" (List.replicate 35 ⟨10, 10, 10, 100⟩) =
          some (recordOf "t" "A" (List.replicate 35 ⟨10, 10, 10, 100⟩)) ∧
        (recordOf "t" "A" (List.replicate 35 ⟨10, 10, 10, 100⟩)).rsi = some 50 ∧
        (recordOf "t" "A" (List.replicate 35 ⟨10, 10, 10, 100⟩)).macd = some 0 ∧
        (recordOf "t" "A" (List.replicate 35 ⟨10, 10, 10, 100⟩)).gap = 0) :=
  ⟨⟨by decide, by decide⟩,
    flat_series_neutral "t" "A" (List.replicate 35 ⟨10, 10, 10, 100⟩) 10
      (by decide) (by decide)⟩

/-! ## Volume spike -/

theorem getD_zero_mem_take (l : List ℚ) (m : ℕ) (hl : l ≠ []) (hm : 1 ≤ m) :
    l.getD 0 0 ∈ l.take m := by
  rcases l with _ | ⟨x, t⟩
  · exact absurd rfl hl
  · rcases m with _ | j
    · omega
    · rw [List.take_succ_cons]
      exact List.mem_cons_self _ _

/-- C9: with at least 10 non-negative volumes the trailing-10 average
exists (no division-by-zero failure is possible — the mean divides by the
constant 10); when it is zero the spike flag is false, and in general the
flag is true exactly when the last volume exceeds 1.5 times that mean;
moreover with the flag off, "Volume Spike" cannot occur in the signal
label. -/
theorem volume_spike_safe (vols : List ℚ) (h10 : 10 ≤ vols.length)
    (hnn : ∀ v ∈ vols, 0 ≤ v) :
    (avgVol10 vols = some ((vols.reverse.take 10).sum / 10) ∧
      ((vols.reverse.take 10).sum / 10 = 0 → volSpikeOf vols = false) ∧
      (volSpikeOf vols = true ↔ ilocD vols 1 > 3 / 2 * ((vols.reverse.take 10).sum / 10))) ∧
    (∀ cr : String, ∀ combo : Bool,
      cr = "Bullish Crossover" ∨ cr = "Bearish Crossover" ∨ cr = "None" →
      containsSub "Volume Spike" (signalLabelOf cr combo false) = false) := by
  have havg : avgVol10 vols = some ((vols.reverse.take 10).sum / 10) := by
    unfold avgVol10
    rw [if_neg (by omega)]
  constructor
  · refine ⟨havg, ?_, ?_⟩
    · intro hm
      have hsum : (vols.reverse.take 10).sum = 0 := by
        rcases div_eq_zero_iff.mp hm with h | h
        · exact h
        · norm_num at h
      have hmem : ilocD vols 1 ∈ vols.reverse.take 10 := by
        unfold ilocD
        refine getD_zero_mem_take _ _ ?_ (by omega)
        intro hrev
        rw [List.reverse_eq_nil_iff] at hrev
        rw [hrev] at h10
        simp at h10
      have hnn10 : ∀ x ∈ vols.reverse.take 10, 0 ≤ x := by
        intro x hx
        exact hnn x (List.mem_reverse.mp (List.take_subset _ _ hx))
      have hx0 : ilocD vols 1 = 0 :=
        List.all_zero_of_le_zero_le_of_sum_eq_zero hnn10 hsum hmem
      unfold volSpikeOf
      rw [havg, hx0, hm]
      norm_num
    · unfold volSpikeOf
      rw [havg]
      simp
  · intro cr combo hcr
    rcases hcr with h | h | h <;> subst h <;> cases combo <;> decide

theorem volume_spike_safe_witness :
    (10 ≤ (List.replicate 10 (100 : ℚ)).length ∧
        ∀ v ∈ List.replicate 10 (100 : ℚ), 0 ≤ v) ∧
      ((avgVol10 (List.replicate 10 (100 : ℚ)) =
          some (((List.replicate 10 (100 : ℚ)).reverse.take 10).sum / 10) ∧
        (((List.replicate 10 (100 : ℚ)).reverse.take 10).sum / 10 = 0 →
          volSpikeOf (List.replicate 10 (100 : ℚ)) = false) ∧
        (volSpikeOf (List.replicate 10 (100 : ℚ)) = true ↔
          ilocD (List.replicate 10 (100 : ℚ)) 1 >
            3 / 2 * (((List.replicate 10 (100 : ℚ)).reverse.take 10).sum / 10))) ∧
      (∀ cr : String, ∀ combo : Bool,
        cr = "Bullish Crossover" ∨ cr = "Bearish Crossover" ∨ cr = "None" →
        containsSub "Volume Spike" (signalLabelOf cr combo false) = false)) :=
  ⟨⟨by decide, by decide⟩,
    volume_spike_safe (List.replicate 10 (100 : ℚ)) (by decide) (by decide)⟩

end SwingTrade
